import Mathlib

/-!
# NamespaceTransformer (plugin/builtin/namespacetransformer/NamespaceTransformer.go)

A shallow embedding of the plugin's two entry points, `Config` and `Transform`,
and theorems about them.

The plugin is a thin binding over collaborators that live in other packages
(`resmap`, `resource`, `resid`, `filters/namespace`, `yaml`).  The two
collaborators that can fail, the origin lookup and the namespace filter, are
parameters of the embedding (`Collab`): every theorem holds for every origin
lookup and every filter.  The small accessors of a resource are modelled from the
data model of the specification and are marked as such.

A resource set is a list of resources; the position of a resource in the list
stands for the pointer the Go code holds, so "mutating `r` in place" is
"replacing the element at the index of `r`".  A run of `Transform` returns the
error (if any), the final resources and the trace of the calls it made.
-/

set_option autoImplicit false

namespace NamespaceTransformer

/-! ## Data model -/

/-- Group, version and kind of a resource (`resid.Gvk`). -/
structure Gvk where
  Group : String
  Version : String
  Kind : String
deriving DecidableEq

/-- Identity of a resource (`resid.ResId`): (group, version, kind, namespace, name). -/
structure ResId where
  Gvk : Gvk
  Name : String
  Namespace : String
deriving DecidableEq

/-- Modelled from the spec: `ResId.Equals` is in package `resid`, outside this
file.  The identity is the tuple (group, version, kind, namespace, name) and two
identities are equal when the five components agree. -/
def ResId.Equals (id o : ResId) : Bool := decide (id = o)

/-- The configuring entity recorded in an origin (`ConfiguredBy`): kind and name. -/
structure ResourceIdentifier where
  Kind : String
  Name : String
deriving DecidableEq

/-- Provenance metadata of a resource (`resource.Origin`); `Transform` reads only
`ConfiguredBy.Kind`. -/
structure Origin where
  ConfiguredBy : ResourceIdentifier
deriving DecidableEq

/-- Modelled from the spec: the type `resource.Resource` is outside this file.
A document has a flag telling whether it is nil or structurally empty, a current
identity (whose `Namespace` is the document's namespace field), a previous-ID
slot, and its remaining fields as path/value pairs. -/
structure Resource where
  Empty : Bool
  Id : ResId
  PrevId : Option ResId
  Fields : List (String × String)
deriving DecidableEq

/-- Modelled from the spec: `r.IsNilOrEmpty()`, whether the document is nil or
structurally empty. -/
def Resource.IsNilOrEmpty (r : Resource) : Bool := r.Empty

/-- Modelled from the spec: `r.CurId()`, the current identity of the document. -/
def Resource.CurId (r : Resource) : ResId := r.Id

/-- Modelled from the spec: `r.StorePreviousId()` snapshots the current identity
of the document into its previous-ID slot. -/
def Resource.StorePreviousId (r : Resource) : Resource :=
  { r with PrevId := some r.CurId }

/-- Modelled from the spec: `m.GetMatchingResourcesByCurrentId(matcher)` returns,
in set order, the documents whose current identity satisfies `matcher`. -/
def GetMatchingResourcesByCurrentId (m : List Resource) (matcher : ResId → Bool) :
    List Resource :=
  m.filter (fun r => matcher r.CurId)

/-- A field-path specification (`types.FieldSpec`). -/
structure FieldSpec where
  Gvk : Gvk
  Path : String
  CreateIfNotPresent : Bool
deriving DecidableEq

/-- Modelled from the spec: `namespace.RoleBindingSubjectMode` is a string type;
its four constants are the strings "", "defaultOnly", "allServiceAccounts" and
"none". -/
abbrev RoleBindingSubjectMode := String

def SubjectModeUnspecified : RoleBindingSubjectMode := ""
def DefaultSubjectsOnly : RoleBindingSubjectMode := "defaultOnly"
def AllServiceAccountSubjects : RoleBindingSubjectMode := "allServiceAccounts"
def NoSubjects : RoleBindingSubjectMode := "none"

/-- The argument record `namespace.Filter{...}` built at lines 74-79. -/
structure Filter where
  Namespace : String
  FsSlice : List FieldSpec
  SetRoleBindingSubjects : RoleBindingSubjectMode
  UnsetOnly : Bool
deriving DecidableEq

/-- Error values.  `external` is an error made by a collaborator; the other three
are the errors the plugin itself builds (lines 36, 44-46 and 84-85). -/
inductive Error where
  | external (msg : String)
  | WrapPrefixf (err : Error) (pfx : String)
  | invalidValue (value : String) (choices : List String)
  | idConflict (found : List Resource)
deriving DecidableEq

/-- The embedded `types.ObjectMeta` of the plugin. -/
structure ObjectMeta where
  Name : String
  Namespace : String
  Labels : List (String × String)
  Annotations : List (String × String)
deriving DecidableEq

/-- The plugin state (lines 22-27); `ObjectMeta` is embedded, so `p.Namespace` is
`metadata.namespace`. -/
structure plugin extends ObjectMeta where
  FieldSpecs : List FieldSpec
  UnsetOnly : Bool
  SetRoleBindingSubjects : RoleBindingSubjectMode
deriving DecidableEq

/-- The global plugin instance of line 29, in its initial (zero) state. -/
def KustomizePlugin : plugin :=
  { Name := "", Namespace := "", Labels := [], Annotations := []
    FieldSpecs := [], UnsetOnly := false, SetRoleBindingSubjects := "" }

/-! ## Collaborators and runs -/

/-- The two fallible collaborators `Transform` calls on a resource.  `GetOrigin`
is `r.GetOrigin()`: it fails, or reports no origin, or reports an origin.
`ApplyFilter f r` is `r.ApplyFilter(f)`: it returns the resource as the filter
left it and the error of the filter, if any; it has no access to the other
resources of the set. -/
structure Collab where
  GetOrigin : Resource → Except Error (Option Origin)
  ApplyFilter : Filter → Resource → Resource × Option Error

/-- An argument of a log line. -/
inductive Arg where
  | id (x : ResId)
  | str (s : String)
  | err (e : Error)
deriving DecidableEq

/-- The observable calls of a run: a `log.Printf` line, `StorePreviousId` on the
resource at index `i`, `ApplyFilter` on the resource at index `i`, and the
conflict query run for the resource at index `i` with its identity. -/
inductive Event where
  | Printf (format : String) (args : List Arg)
  | StorePreviousId (i : Nat)
  | ApplyFilter (i : Nat) (f : Filter)
  | GetMatchingResourcesByCurrentId (i : Nat) (id : ResId)
deriving DecidableEq

/-- A run of `Transform`, finished or in progress: the error returned (if any),
the resources, and the calls made so far. -/
structure Run where
  err : Option Error
  m : List Resource
  trace : List Event
deriving DecidableEq

/-- Append one call to the trace. -/
def Run.emit (s : Run) (e : Event) : Run := { s with trace := s.trace ++ [e] }

/-! ## Config (lines 31-50) -/

/-- `Config`, lines 31-50.  `Unmarshal c p` is `yaml.Unmarshal(c, p)`: it returns
the plugin as decoding left it and the decode error, if any.  The result is the
plugin state after the call and the returned error. -/
def Config (Unmarshal : List UInt8 → plugin → plugin × Option Error)
    (p : plugin) (c : List UInt8) : plugin × Option Error :=
  let p : plugin := { p with Namespace := "", FieldSpecs := [] }
  match Unmarshal c p with
  | (p, some err) => (p, some (.WrapPrefixf err "unmarshalling NamespaceTransformer config"))
  | (p, none) =>
    if p.SetRoleBindingSubjects = AllServiceAccountSubjects
        ∨ p.SetRoleBindingSubjects = DefaultSubjectsOnly
        ∨ p.SetRoleBindingSubjects = NoSubjects then
      (p, none)
    else if p.SetRoleBindingSubjects = SubjectModeUnspecified then
      ({ p with SetRoleBindingSubjects := DefaultSubjectsOnly }, none)
    else
      (p, some (.invalidValue p.SetRoleBindingSubjects
        [DefaultSubjectsOnly, NoSubjects, AllServiceAccountSubjects]))

/-- The keys a configuration input can carry; `none` is an absent key. -/
structure ConfigInput where
  Name : Option String
  Namespace : Option String
  Labels : Option (List (String × String))
  Annotations : Option (List (String × String))
  FieldSpecs : Option (List FieldSpec)
  UnsetOnly : Option Bool
  SetRoleBindingSubjects : Option RoleBindingSubjectMode
deriving DecidableEq

/-- Modelled from the spec: `yaml.Unmarshal` is outside this file.  Decoding into
an existing plugin overwrites the fields whose keys the input carries and leaves
the other fields as they were (the carry-over that the reset of lines 33-34
prevents for namespace and field specs).  `decode` is the parser. -/
def yamlUnmarshal (decode : List UInt8 → Except Error ConfigInput)
    (c : List UInt8) (p : plugin) : plugin × Option Error :=
  match decode c with
  | .error err => (p, some err)
  | .ok inp =>
    ({ Name := inp.Name.getD p.Name
       Namespace := inp.Namespace.getD p.Namespace
       Labels := inp.Labels.getD p.Labels
       Annotations := inp.Annotations.getD p.Annotations
       FieldSpecs := inp.FieldSpecs.getD p.FieldSpecs
       UnsetOnly := inp.UnsetOnly.getD p.UnsetOnly
       SetRoleBindingSubjects := inp.SetRoleBindingSubjects.getD p.SetRoleBindingSubjects },
     none)

/-! ## Transform (lines 52-88) -/

/-- The filter value built at lines 74-79. -/
def plugin.filter (p : plugin) : Filter :=
  { Namespace := p.Namespace
    FsSlice := p.FieldSpecs
    SetRoleBindingSubjects := p.SetRoleBindingSubjects
    UnsetOnly := p.UnsetOnly }

/-- Lines 73-86, for the resource `r` at index `i`: store the previous ID, apply
the filter, return its error if it fails, otherwise query the set for the resources
with the new identity of `r` and fail unless there is exactly one. -/
def mutate (c : Collab) (p : plugin) (i : Nat) (r : Resource) (s : Run) : Run :=
  let r := r.StorePreviousId
  let s := s.emit (.StorePreviousId i)
  let out := c.ApplyFilter p.filter r
  let r := out.1
  let s : Run := { s with m := s.m.set i r, trace := s.trace ++ [.ApplyFilter i p.filter] }
  match out.2 with
  | some err => { s with err := some err }
  | none =>
    let found := GetMatchingResourcesByCurrentId s.m r.CurId.Equals
    let s := s.emit (.GetMatchingResourcesByCurrentId i r.CurId)
    if found.length ≠ 1 then
      { s with err := some (.idConflict found) }
    else s

/-- The loop body, lines 57-86, for the resource at index `i`.  The run returned
has `err` set exactly when the body returns an error. -/
def visit (c : Collab) (p : plugin) (i : Nat) (s : Run) : Run :=
  match s.m[i]? with
  | none => s
  | some r =>
    if r.IsNilOrEmpty then
      s
    else
      match c.GetOrigin r with
      | .error err =>
        mutate c p i r
          (s.emit (.Printf "unable to get origin for %s: %v" [.id r.CurId, .err err]))
      | .ok (some origin) =>
        let s := s.emit (.Printf "origin of %s configured by %s"
          [.id r.CurId, .str origin.ConfiguredBy.Kind])
        if origin.ConfiguredBy.Kind = "HelmChartInflationGenerator" then
          s.emit (.Printf
            "skipping %s because it was configured by HelmChartInflationGenerator"
            [.id r.CurId])
        else
          mutate c p i r s
      | .ok none =>
        mutate c p i r (s.emit (.Printf "no origin found for %s" [.id r.CurId]))

/-- The loop of lines 56-87 over the resources at the given indices, in order; it
stops at the first error. -/
def TransformLoop (c : Collab) (p : plugin) : List Nat → Run → Run
  | [], s => s
  | i :: rest, s =>
    let s := visit c p i s
    match s.err with
    | some _ => s
    | none => TransformLoop c p rest s

/-- The run of the loop over the first `k` resources of `m`: the state in which
the resource at index `k` is visited, when no error came before. -/
def TransformPrefix (c : Collab) (p : plugin) (m : List Resource) (k : Nat) : Run :=
  TransformLoop c p (List.range k) { err := none, m := m, trace := [] }

/-- `Transform`, lines 52-88.  `m.Resources()` is the list of the resources of the
set, visited by index. -/
def Transform (c : Collab) (p : plugin) (m : List Resource) : Run :=
  if p.Namespace.utf8ByteSize = 0 then
    { err := none, m := m, trace := [] }
  else
    TransformLoop c p (List.range m.length) { err := none, m := m, trace := [] }

/-! ## Predicates used to state the theorems -/

/-- Whether the origin lookup of `r` reports an origin configured by the Helm
chart inflation generator (the test of line 66). -/
def skipsForHelm (c : Collab) (r : Resource) : Bool :=
  match c.GetOrigin r with
  | .ok (some origin) => decide (origin.ConfiguredBy.Kind = "HelmChartInflationGenerator")
  | _ => false

/-- Whether `Transform` mutates `r` when it visits it: `r` is not empty and is not
skipped for its Helm origin. -/
def isMutated (c : Collab) (r : Resource) : Bool :=
  !r.IsNilOrEmpty && !skipsForHelm c r

/-- The index of the resource a call is made on; a log line has none. -/
def Event.index : Event → Option Nat
  | .Printf _ _ => none
  | .StorePreviousId i => some i
  | .ApplyFilter i _ => some i
  | .GetMatchingResourcesByCurrentId i _ => some i

/-- The collaborators `c` with the origin lookup of the resource `r₀` replaced by
the outcome `v`. -/
def Collab.withOrigin (c : Collab) (r₀ : Resource) (v : Except Error (Option Origin)) :
    Collab :=
  { c with GetOrigin := fun r => if r = r₀ then v else c.GetOrigin r }

/-! ## Sample collaborators, for evaluating runs on concrete inputs -/

/-- A sample origin lookup: the origin is read from the field
"origin.configuredBy.kind"; no such field is no origin, an empty value is a failed
lookup. -/
def sampleGetOrigin (r : Resource) : Except Error (Option Origin) :=
  match r.Fields.lookup "origin.configuredBy.kind" with
  | none => .ok none
  | some k =>
    if k = "" then .error (.external "malformed origin annotation")
    else .ok (some { ConfiguredBy := { Kind := k, Name := "" } })

/-- A sample filter: it writes the namespace into the identity (only when the
namespace is unset, if `UnsetOnly` holds) and fails, leaving the resource as it
was, on a resource that has a field "malformed". -/
def sampleApplyFilter (f : Filter) (r : Resource) : Resource × Option Error :=
  match r.Fields.lookup "malformed" with
  | some msg => (r, some (.external msg))
  | none =>
    if f.UnsetOnly ∧ r.Id.Namespace ≠ "" then (r, none)
    else ({ r with Id := { r.Id with Namespace := f.Namespace } }, none)

def sampleCollab : Collab :=
  { GetOrigin := sampleGetOrigin, ApplyFilter := sampleApplyFilter }

/-- A plugin configured with target namespace `ns` and nothing else. -/
def pluginFor (ns : String) : plugin :=
  { Name := "", Namespace := ns, Labels := [], Annotations := []
    FieldSpecs := [], UnsetOnly := false, SetRoleBindingSubjects := DefaultSubjectsOnly }

/-- A ConfigMap named `name` in namespace `ns`, with the given extra fields. -/
def configMap (name ns : String) (fields : List (String × String)) : Resource :=
  { Empty := false
    Id := { Gvk := { Group := "", Version := "v1", Kind := "ConfigMap" }
            Name := name, Namespace := ns }
    PrevId := none
    Fields := fields }

/-- An empty resource. -/
def emptyResource : Resource :=
  { Empty := true
    Id := { Gvk := { Group := "", Version := "", Kind := "" }, Name := "", Namespace := "" }
    PrevId := none
    Fields := [] }

/-- A ConfigMap whose origin is configured by the Helm chart inflation generator. -/
def helmConfigMap : Resource :=
  configMap "chart" "helm" [("origin.configuredBy.kind", "HelmChartInflationGenerator")]

/-- A configuration input that carries only the target namespace "prod". -/
def sampleInput : ConfigInput :=
  { Name := none, Namespace := some "prod", Labels := none, Annotations := none
    FieldSpecs := none, UnsetOnly := none, SetRoleBindingSubjects := none }

/-- A parser that decodes every input to `sampleInput`. -/
def sampleDecode (_ : List UInt8) : Except Error ConfigInput := .ok sampleInput

/-- A plugin holding state of an earlier configuration. -/
def stalePlugin : plugin :=
  { Name := "old", Namespace := "stale", Labels := [], Annotations := []
    FieldSpecs := [{ Gvk := { Group := "", Version := "", Kind := "" }
                     Path := "metadata/namespace", CreateIfNotPresent := true }]
    UnsetOnly := true, SetRoleBindingSubjects := NoSubjects }

/-! ## Lemmas on one visit and on the loop -/

theorem utf8ByteSize_eq_zero_iff (s : String) : s.utf8ByteSize = 0 ↔ s = "" := by
  constructor
  · intro h
    cases s with
    | mk data =>
      cases data with
      | nil => rfl
      | cons a as =>
        simp [String.utf8ByteSize, String.utf8ByteSize.go] at h
        have := Char.utf8Size_pos a
        omega
  · rintro rfl; rfl

/-- The resources after `mutate`: only index `i` is replaced, by the filter's output. -/
theorem mutate_m (c : Collab) (p : plugin) (i : Nat) (r : Resource) (s : Run) :
    (mutate c p i r s).m = s.m.set i (c.ApplyFilter p.filter r.StorePreviousId).1 := by
  unfold mutate
  simp only []
  split
  · rfl
  · split <;> rfl

theorem visit_out_of_range (c : Collab) (p : plugin) (i : Nat) (s : Run)
    (h : s.m[i]? = none) : visit c p i s = s := by
  simp [visit, h]

theorem visit_skip (c : Collab) (p : plugin) (i : Nat) (s : Run) (r : Resource)
    (h : s.m[i]? = some r) (hs : isMutated c r = false) :
    ∃ logs, (∀ e ∈ logs, Event.index e = none) ∧
      visit c p i s = { s with trace := s.trace ++ logs } := by
  unfold visit
  simp only [h]
  by_cases he : r.IsNilOrEmpty = true
  · exact ⟨[], by simp, by simp [he]⟩
  · simp only [he, Bool.false_eq_true, if_false]
    simp only [isMutated, skipsForHelm] at hs
    cases hg : c.GetOrigin r with
    | error err => simp [hg, he] at hs
    | ok o =>
      cases o with
      | none => simp [hg, he] at hs
      | some origin =>
        simp only [hg] at hs
        have hk : origin.ConfiguredBy.Kind = "HelmChartInflationGenerator" := by
          simpa [he] using hs
        refine ⟨[.Printf "origin of %s configured by %s"
            [.id r.CurId, .str origin.ConfiguredBy.Kind],
          .Printf "skipping %s because it was configured by HelmChartInflationGenerator"
            [.id r.CurId]], ?_, ?_⟩
        · intro e he'
          simp at he'
          rcases he' with rfl | rfl <;> rfl
        · simp [hk, Run.emit]

theorem visit_mutate (c : Collab) (p : plugin) (i : Nat) (s : Run) (r : Resource)
    (h : s.m[i]? = some r) (hs : isMutated c r = true) :
    ∃ logs, (∀ e ∈ logs, Event.index e = none) ∧
      visit c p i s = mutate c p i r { s with trace := s.trace ++ logs } := by
  unfold visit
  simp only [h]
  simp only [isMutated, skipsForHelm, Bool.and_eq_true, Bool.not_eq_true'] at hs
  obtain ⟨he, hh⟩ := hs
  simp only [he, Bool.false_eq_true, if_false]
  cases hg : c.GetOrigin r with
  | error err =>
    exact ⟨[.Printf "unable to get origin for %s: %v" [.id r.CurId, .err err]],
      by simp [Event.index], by simp [Run.emit]⟩
  | ok o =>
    cases o with
    | none =>
      exact ⟨[.Printf "no origin found for %s" [.id r.CurId]],
        by simp [Event.index], by simp [Run.emit]⟩
    | some origin =>
      simp only [hg, decide_eq_false_iff_not] at hh
      exact ⟨[.Printf "origin of %s configured by %s"
          [.id r.CurId, .str origin.ConfiguredBy.Kind]],
        by simp [Event.index], by simp [hh, Run.emit]⟩

theorem mutate_err_of_filter_error (c : Collab) (p : plugin) (i : Nat) (r : Resource)
    (s : Run) (e : Error) (h : (c.ApplyFilter p.filter r.StorePreviousId).2 = some e) :
    (mutate c p i r s).err = some e := by
  unfold mutate
  simp only [h]

theorem mutate_err_of_filter_ok (c : Collab) (p : plugin) (i : Nat) (r : Resource)
    (s : Run) (h : (c.ApplyFilter p.filter r.StorePreviousId).2 = none) :
    (mutate c p i r s).err =
      if (GetMatchingResourcesByCurrentId
            (s.m.set i (c.ApplyFilter p.filter r.StorePreviousId).1)
            (c.ApplyFilter p.filter r.StorePreviousId).1.CurId.Equals).length ≠ 1
      then some (.idConflict (GetMatchingResourcesByCurrentId
            (s.m.set i (c.ApplyFilter p.filter r.StorePreviousId).1)
            (c.ApplyFilter p.filter r.StorePreviousId).1.CurId.Equals))
      else s.err := by
  unfold mutate
  simp only [h, Run.emit]
  split <;> rfl

theorem mutate_trace (c : Collab) (p : plugin) (i : Nat) (r : Resource) (s : Run) :
    ∃ new, (mutate c p i r s).trace = s.trace ++ new ∧
      Event.StorePreviousId i ∈ new ∧ Event.ApplyFilter i p.filter ∈ new ∧
      ∀ e ∈ new, Event.index e = some i := by
  unfold mutate
  simp only [Run.emit]
  split
  · exact ⟨[.StorePreviousId i, .ApplyFilter i p.filter], by simp, by simp, by simp,
      by intro e he; simp at he; rcases he with rfl | rfl <;> rfl⟩
  · split
    all_goals
      exact ⟨[.StorePreviousId i, .ApplyFilter i p.filter,
          .GetMatchingResourcesByCurrentId i
            (c.ApplyFilter p.filter r.StorePreviousId).1.CurId], by simp, by simp, by simp,
        by intro e he; simp at he; rcases he with rfl | rfl | rfl <;> rfl⟩

/-- One visit changes at most the resource at its own index. -/
theorem visit_m (c : Collab) (p : plugin) (i : Nat) (s : Run) :
    (visit c p i s).m = s.m ∨ ∃ r, s.m[i]? = some r ∧ isMutated c r = true ∧
      (visit c p i s).m = s.m.set i (c.ApplyFilter p.filter r.StorePreviousId).1 := by
  cases h : s.m[i]? with
  | none => left; rw [visit_out_of_range c p i s h]
  | some r =>
    cases hm : isMutated c r with
    | false =>
      obtain ⟨logs, -, hv⟩ := visit_skip c p i s r h hm
      left; rw [hv]
    | true =>
      obtain ⟨logs, -, hv⟩ := visit_mutate c p i s r h hm
      right
      exact ⟨r, rfl, hm, by rw [hv, mutate_m]⟩

theorem visit_length (c : Collab) (p : plugin) (i : Nat) (s : Run) :
    (visit c p i s).m.length = s.m.length := by
  rcases visit_m c p i s with h | ⟨r, -, -, h⟩ <;> simp [h]

theorem visit_get_ne (c : Collab) (p : plugin) (i j : Nat) (s : Run) (hij : j ≠ i) :
    (visit c p i s).m[j]? = s.m[j]? := by
  rcases visit_m c p i s with h | ⟨r, -, -, h⟩
  · rw [h]
  · rw [h, List.getElem?_set_ne (Ne.symm hij)]

/-- The calls one visit adds are log lines and calls on its own index. -/
theorem visit_trace (c : Collab) (p : plugin) (i : Nat) (s : Run) :
    ∃ new, (visit c p i s).trace = s.trace ++ new ∧
      ∀ e ∈ new, Event.index e = none ∨ Event.index e = some i := by
  cases h : s.m[i]? with
  | none => exact ⟨[], by rw [visit_out_of_range c p i s h]; simp, by simp⟩
  | some r =>
    cases hm : isMutated c r with
    | false =>
      obtain ⟨logs, hl, hv⟩ := visit_skip c p i s r h hm
      exact ⟨logs, by rw [hv], fun e he => Or.inl (hl e he)⟩
    | true =>
      obtain ⟨logs, hl, hv⟩ := visit_mutate c p i s r h hm
      obtain ⟨new, hn, -, -, hi⟩ := mutate_trace c p i r { s with trace := s.trace ++ logs }
      refine ⟨logs ++ new, by rw [hv, hn]; simp, ?_⟩
      intro e he
      rcases List.mem_append.1 he with he | he
      · exact Or.inl (hl e he)
      · exact Or.inr (hi e he)

/-- Loop invariants: a property that holds at the start and is kept by every
visit holds at the end of the loop. -/
theorem TransformLoop_invariant (c : Collab) (p : plugin) (P : Run → Prop) :
    ∀ (l : List Nat) (s : Run), (∀ i ∈ l, ∀ s, P s → P (visit c p i s)) → P s →
      P (TransformLoop c p l s) := by
  intro l
  induction l with
  | nil => intro s _ hs; simpa [TransformLoop] using hs
  | cons i rest ih =>
    intro s hstep hs
    have h1 := hstep i (List.mem_cons_self i rest) s hs
    have ih := fun t => ih t (fun k hk => hstep k (List.mem_cons_of_mem i hk))
    unfold TransformLoop
    simp only
    split
    · exact h1
    · exact ih _ h1

theorem TransformLoop_append_ok (c : Collab) (p : plugin) (l₁ l₂ : List Nat) :
    ∀ s : Run, (TransformLoop c p l₁ s).err = none →
      TransformLoop c p (l₁ ++ l₂) s = TransformLoop c p l₂ (TransformLoop c p l₁ s) := by
  induction l₁ with
  | nil => intro s _; simp [TransformLoop]
  | cons i rest ih =>
    intro s h
    simp only [List.cons_append, TransformLoop] at h ⊢
    cases he : (visit c p i s).err with
    | some e => simp [he] at h
    | none =>
      simp only [he] at h ⊢
      exact ih _ h

theorem TransformLoop_append_err (c : Collab) (p : plugin) (l₁ l₂ : List Nat) :
    ∀ s : Run, s.err = none → (TransformLoop c p l₁ s).err ≠ none →
      TransformLoop c p (l₁ ++ l₂) s = TransformLoop c p l₁ s := by
  induction l₁ with
  | nil => intro s hs h; simp [TransformLoop, hs] at h
  | cons i rest ih =>
    intro s _ h
    simp only [List.cons_append, TransformLoop] at h ⊢
    cases he : (visit c p i s).err with
    | some e => rfl
    | none =>
      simp only [he] at h ⊢
      exact ih _ he h

theorem TransformLoop_singleton (c : Collab) (p : plugin) (i : Nat) (s : Run) :
    TransformLoop c p [i] s = visit c p i s := by
  simp only [TransformLoop]
  split <;> rfl

theorem TransformPrefix_succ (c : Collab) (p : plugin) (m : List Resource) (k : Nat)
    (h : (TransformPrefix c p m k).err = none) :
    TransformPrefix c p m (k + 1) = visit c p k (TransformPrefix c p m k) := by
  unfold TransformPrefix at h ⊢
  rw [List.range_succ, TransformLoop_append_ok c p _ _ _ h, TransformLoop_singleton]

theorem TransformPrefix_stable (c : Collab) (p : plugin) (m : List Resource) (k n : Nat)
    (h : (TransformPrefix c p m k).err ≠ none) (hkn : k ≤ n) :
    TransformPrefix c p m n = TransformPrefix c p m k := by
  obtain ⟨d, rfl⟩ := Nat.exists_eq_add_of_le hkn
  unfold TransformPrefix at h ⊢
  rw [List.range_add]
  exact TransformLoop_append_err c p _ _ _ rfl h

theorem Transform_eq_whole_loop (c : Collab) (p : plugin) (m : List Resource)
    (hns : p.Namespace ≠ "") : Transform c p m = TransformPrefix c p m m.length := by
  have : p.Namespace.utf8ByteSize ≠ 0 := fun h => hns ((utf8ByteSize_eq_zero_iff _).1 h)
  simp [Transform, TransformPrefix, this]

/-- A resource that is not mutated when visited is left as it is by the whole
loop, and no call is made on it. -/
theorem TransformLoop_untouched (c : Collab) (p : plugin) (i : Nat) (r : Resource)
    (hr : isMutated c r = false) (l : List Nat) (s : Run)
    (h0 : s.m[i]? = some r) (ht : ∀ e ∈ s.trace, Event.index e ≠ some i) :
    (TransformLoop c p l s).m[i]? = some r ∧
      ∀ e ∈ (TransformLoop c p l s).trace, Event.index e ≠ some i := by
  refine TransformLoop_invariant c p
    (fun t => t.m[i]? = some r ∧ ∀ e ∈ t.trace, Event.index e ≠ some i) l s ?_ ⟨h0, ht⟩
  intro k _ t ⟨h1, h2⟩
  by_cases hk : k = i
  · subst hk
    obtain ⟨logs, hl, hv⟩ := visit_skip c p k t r h1 hr
    rw [hv]
    refine ⟨h1, ?_⟩
    intro e he
    rcases List.mem_append.1 he with he | he
    · exact h2 e he
    · rw [hl e he]; simp
  · refine ⟨by rw [visit_get_ne c p k i t (Ne.symm hk)]; exact h1, ?_⟩
    obtain ⟨new, hn, hi⟩ := visit_trace c p k t
    rw [hn]
    intro e he
    rcases List.mem_append.1 he with he | he
    · exact h2 e he
    · rcases hi e he with h | h <;> rw [h] <;> simp [hk]

theorem Transform_untouched (c : Collab) (p : plugin) (m : List Resource) (i : Nat)
    (r : Resource) (hi : m[i]? = some r) (hr : isMutated c r = false) :
    (Transform c p m).m[i]? = some r ∧
      ∀ e ∈ (Transform c p m).trace, Event.index e ≠ some i := by
  unfold Transform
  split
  · exact ⟨hi, by simp⟩
  · exact TransformLoop_untouched c p i r hr _ _ hi (by simp)

/-- Two different positions of a list that both satisfy `q` give at least two
elements in the filtered list. -/
theorem two_le_length_filter {α : Type} (q : α → Bool) :
    ∀ (l : List α) (i j : Nat) (a b : α), i < j → l[i]? = some a → l[j]? = some b →
      q a = true → q b = true → 2 ≤ (l.filter q).length := by
  intro l
  induction l with
  | nil => intro i j a b _ hi; simp at hi
  | cons x xs ih =>
    intro i j a b hij hi hj ha hb
    cases j with
    | zero => omega
    | succ j =>
      simp only [List.getElem?_cons_succ] at hj
      cases i with
      | zero =>
        simp only [List.getElem?_cons_zero, Option.some.injEq] at hi
        subst hi
        have hmem : b ∈ xs.filter q :=
          List.mem_filter.2 ⟨List.getElem?_mem hj, hb⟩
        have := List.length_pos_of_mem hmem
        simp [List.filter_cons, ha]
        omega
      | succ i =>
        simp only [List.getElem?_cons_succ] at hi
        have := ih i j a b (by omega) hi hj ha hb
        by_cases hx : q x = true <;> simp [List.filter_cons, hx] <;> omega

theorem two_le_length_filter_of_ne {α : Type} (q : α → Bool) (l : List α) (i j : Nat)
    (a b : α) (hij : i ≠ j) (hi : l[i]? = some a) (hj : l[j]? = some b)
    (ha : q a = true) (hb : q b = true) : 2 ≤ (l.filter q).length := by
  rcases Nat.lt_or_gt_of_ne hij with h | h
  · exact two_le_length_filter q l i j a b h hi hj ha hb
  · exact two_le_length_filter q l j i b a h hj hi hb ha

theorem ResId.Equals_self (id : ResId) : id.Equals id = true := by
  simp [ResId.Equals]

theorem TransformPrefix_length (c : Collab) (p : plugin) (m : List Resource) (k : Nat) :
    (TransformPrefix c p m k).m.length = m.length := by
  refine TransformLoop_invariant c p (fun t => t.m.length = m.length) _ _ ?_ rfl
  intro i _ t ht
  rw [visit_length]; exact ht

/-- The loop over the first `k` resources leaves the resources from index `k` on
as they were and makes no call on them. -/
theorem TransformPrefix_get_ge (c : Collab) (p : plugin) (m : List Resource)
    (k j : Nat) (hkj : k ≤ j) :
    (TransformPrefix c p m k).m[j]? = m[j]? ∧
      ∀ e ∈ (TransformPrefix c p m k).trace, Event.index e ≠ some j := by
  refine TransformLoop_invariant c p
    (fun t => t.m[j]? = m[j]? ∧ ∀ e ∈ t.trace, Event.index e ≠ some j) _ _ ?_
    ⟨rfl, by simp⟩
  intro i hi t ⟨h1, h2⟩
  have hij : j ≠ i := by
    have := List.mem_range.1 hi
    omega
  refine ⟨by rw [visit_get_ne c p i j t hij]; exact h1, ?_⟩
  obtain ⟨new, hn, hnew⟩ := visit_trace c p i t
  rw [hn]
  intro e he
  rcases List.mem_append.1 he with he | he
  · exact h2 e he
  · rcases hnew e he with h | h <;> rw [h] <;> simp [Ne.symm hij]

/-- The run of Transform when the resource at index `i` is visited without an
earlier error and is mutated: the run is the one of `mutate` on the state the
prefix loop reached, if `mutate` fails. -/
theorem Transform_eq_mutate_of_err (c : Collab) (p : plugin) (m : List Resource)
    (i : Nat) (r : Resource) (hns : p.Namespace ≠ "")
    (hpre : (TransformPrefix c p m i).err = none) (hi : m[i]? = some r)
    (hr : isMutated c r = true)
    (herr : ∀ logs, (mutate c p i r { TransformPrefix c p m i with
      trace := (TransformPrefix c p m i).trace ++ logs }).err ≠ none) :
    ∃ logs, (∀ e ∈ logs, Event.index e = none) ∧
      Transform c p m = mutate c p i r
        { TransformPrefix c p m i with trace := (TransformPrefix c p m i).trace ++ logs } := by
  have hlt : i < m.length := by
    rcases List.getElem?_eq_some_iff.1 hi with ⟨h, -⟩
    exact h
  have hi' : (TransformPrefix c p m i).m[i]? = some r := by
    rw [(TransformPrefix_get_ge c p m i i (le_refl i)).1]; exact hi
  obtain ⟨logs, hl, hv⟩ := visit_mutate c p i (TransformPrefix c p m i) r hi' hr
  refine ⟨logs, hl, ?_⟩
  rw [Transform_eq_whole_loop c p m hns, ← hv, ← TransformPrefix_succ c p m i hpre]
  apply TransformPrefix_stable c p m (i + 1) m.length _ hlt
  rw [TransformPrefix_succ c p m i hpre, hv]
  exact herr _

theorem TransformPrefix_err_none_of_le (c : Collab) (p : plugin) (m : List Resource)
    (k n : Nat) (hkn : k ≤ n) (h : (TransformPrefix c p m n).err = none) :
    (TransformPrefix c p m k).err = none := by
  by_contra hk
  rw [TransformPrefix_stable c p m k n hk hkn] at h
  exact hk h

/-- The step of the prefix loop, whether or not an error came before. -/
theorem TransformPrefix_succ_cases (c : Collab) (p : plugin) (m : List Resource)
    (n : Nat) :
    TransformPrefix c p m (n + 1) = TransformPrefix c p m n ∨
    TransformPrefix c p m (n + 1) = visit c p n (TransformPrefix c p m n) := by
  cases h : (TransformPrefix c p m n).err with
  | none => exact Or.inr (TransformPrefix_succ c p m n h)
  | some e =>
    exact Or.inl (TransformPrefix_stable c p m n (n + 1) (by rw [h]; simp) (Nat.le_succ n))

/-- Once the resource at index `k` has been visited, later visits leave it alone. -/
theorem TransformPrefix_get_lt (c : Collab) (p : plugin) (m : List Resource)
    (k n : Nat) (hkn : k < n) :
    (TransformPrefix c p m n).m[k]? = (TransformPrefix c p m (k + 1)).m[k]? := by
  induction n with
  | zero => omega
  | succ n ih =>
    by_cases hk : k = n
    · subst hk; rfl
    · rcases TransformPrefix_succ_cases c p m n with h | h
      · rw [h]; exact ih (by omega)
      · rw [h, visit_get_ne c p n k _ hk]; exact ih (by omega)

/-- The final state of a resource that was visited without an earlier error and
was mutated is the output of the filter on it, after its previous ID was stored. -/
theorem TransformPrefix_get_mutated (c : Collab) (p : plugin) (m : List Resource)
    (k n : Nat) (r : Resource) (hkn : k < n)
    (hpre : (TransformPrefix c p m k).err = none) (hk : m[k]? = some r)
    (hr : isMutated c r = true) :
    (TransformPrefix c p m n).m[k]? =
      some (c.ApplyFilter p.filter r.StorePreviousId).1 := by
  have hk' : (TransformPrefix c p m k).m[k]? = some r := by
    rw [(TransformPrefix_get_ge c p m k k (le_refl k)).1]; exact hk
  have hlt : k < (TransformPrefix c p m k).m.length := by
    rcases List.getElem?_eq_some_iff.1 hk' with ⟨h, -⟩
    exact h
  obtain ⟨logs, -, hv⟩ := visit_mutate c p k (TransformPrefix c p m k) r hk' hr
  rw [TransformPrefix_get_lt c p m k n hkn, TransformPrefix_succ c p m k hpre, hv,
    mutate_m]
  simp [List.getElem?_set_self hlt]

/-- When Transform stops in the visit of index `i`, the resources after `i` are as
they were at the start and no call was made on them. -/
theorem mutate_prefix_after (c : Collab) (p : plugin) (m : List Resource) (i k : Nat)
    (r : Resource) (logs : List Event) (hl : ∀ e ∈ logs, Event.index e = none)
    (hik : i < k) :
    (mutate c p i r { TransformPrefix c p m i with
        trace := (TransformPrefix c p m i).trace ++ logs }).m[k]? = m[k]? ∧
    ∀ e ∈ (mutate c p i r { TransformPrefix c p m i with
        trace := (TransformPrefix c p m i).trace ++ logs }).trace,
      Event.index e ≠ some k := by
  obtain ⟨h1, h2⟩ := TransformPrefix_get_ge c p m i k (le_of_lt hik)
  constructor
  · rw [mutate_m, List.getElem?_set_ne (by omega)]
    exact h1
  · obtain ⟨new, hn, -, -, hnew⟩ := mutate_trace c p i r
      { TransformPrefix c p m i with trace := (TransformPrefix c p m i).trace ++ logs }
    rw [hn]
    intro e he
    simp only [List.mem_append] at he
    rcases he with (he | he) | he
    · exact h2 e he
    · rw [hl e he]; simp
    · rw [hnew e he]; simp; omega

/-- When the conflict query finds exactly one resource, no resource at another
index has the identity asked for. -/
theorem no_other_match (l : List Resource) (k b : Nat) (r₂ rb : Resource)
    (h1 : (GetMatchingResourcesByCurrentId l r₂.CurId.Equals).length = 1)
    (hk : l[k]? = some r₂) (hbk : b ≠ k) (hb : l[b]? = some rb) :
    rb.CurId ≠ r₂.CurId := by
  intro hid
  have := two_le_length_filter_of_ne (fun r => r₂.CurId.Equals r.CurId) l k b r₂ rb
    (Ne.symm hbk) hk hb (ResId.Equals_self _) (by simp [ResId.Equals, hid])
  unfold GetMatchingResourcesByCurrentId at h1
  omega

/-- The invariant of the loop behind C10: after the first `k` resources were
processed without error, a mutated resource among them shares its identity with no
resource that is already processed or that will not be mutated. -/
theorem TransformPrefix_unique (c : Collab) (p : plugin) (m : List Resource) :
    ∀ k, (TransformPrefix c p m k).err = none →
      ∀ a b r₀ ra rb, a < k → m[a]? = some r₀ → isMutated c r₀ = true → a ≠ b →
        (TransformPrefix c p m k).m[a]? = some ra →
        (TransformPrefix c p m k).m[b]? = some rb →
        (b < k ∨ ∃ r₁, m[b]? = some r₁ ∧ isMutated c r₁ = false) →
        ra.CurId ≠ rb.CurId := by
  intro k
  induction k with
  | zero => intro _ a b r₀ ra rb ha; omega
  | succ k ih =>
    intro hok a b r₀ ra rb ha hma hmut hab hra hrb hb
    have hpre := TransformPrefix_err_none_of_le c p m k (k + 1) (Nat.le_succ k) hok
    have ih := ih hpre
    have hS := TransformPrefix_succ c p m k hpre
    have hge := (TransformPrefix_get_ge c p m k k (le_refl k)).1
    cases hk : m[k]? with
    | none =>
      rw [hk] at hge
      rw [hS, visit_out_of_range c p k _ hge] at hra hrb
      have hak : a ≠ k := by rintro rfl; rw [hk] at hma; cases hma
      have hbk : b ≠ k := by rintro rfl; rw [hge] at hrb; cases hrb
      refine ih a b r₀ ra rb (by omega) hma hmut hab hra hrb ?_
      rcases hb with hb | hb
      · left; omega
      · right; exact hb
    | some rk =>
      rw [hk] at hge
      cases hmk : isMutated c rk with
      | false =>
        obtain ⟨logs, -, hv⟩ := visit_skip c p k _ rk hge hmk
        rw [hS, hv] at hra hrb
        have hak : a ≠ k := by
          rintro rfl
          rw [hk] at hma
          cases hma
          rw [hmk] at hmut
          cases hmut
        refine ih a b r₀ ra rb (by omega) hma hmut hab hra hrb ?_
        rcases hb with hb | hb
        · by_cases hbk : b = k
          · right; subst hbk; exact ⟨rk, hk, hmk⟩
          · left; omega
        · right; exact hb
      | true =>
        obtain ⟨logs, -, hv⟩ := visit_mutate c p k _ rk hge hmk
        have hlt : k < (TransformPrefix c p m k).m.length := by
          rcases List.getElem?_eq_some_iff.1 hge with ⟨h, -⟩
          exact h
        rw [hS, hv] at hok
        rw [hS, hv, mutate_m] at hra hrb
        -- the filter succeeded and the conflict query found one resource
        cases hf : (c.ApplyFilter p.filter rk.StorePreviousId).2 with
        | some e =>
          rw [mutate_err_of_filter_error c p k rk _ e hf] at hok
          cases hok
        | none =>
          rw [mutate_err_of_filter_ok c p k rk _ hf] at hok
          split at hok
          · cases hok
          · rename_i hone
            have hone := not_not.1 hone
            have hkk : ((TransformPrefix c p m k).m.set k
                (c.ApplyFilter p.filter rk.StorePreviousId).1)[k]? =
                some (c.ApplyFilter p.filter rk.StorePreviousId).1 := by
              simp [List.getElem?_set_self hlt]
            by_cases hak : a = k
            · subst hak
              rw [hkk] at hra
              cases hra
              exact (no_other_match _ a b _ rb hone hkk (Ne.symm hab) hrb).symm
            · by_cases hbk : b = k
              · subst hbk
                rw [hkk] at hrb
                cases hrb
                exact no_other_match _ b a _ ra hone hkk hak hra
              · rw [List.getElem?_set_ne (Ne.symm hak)] at hra
                rw [List.getElem?_set_ne (Ne.symm hbk)] at hrb
                refine ih a b r₀ ra rb (by omega) hma hmut hab hra hrb ?_
                rcases hb with hb | hb
                · left; omega
                · right; exact hb

theorem mutate_congr (c₁ c₂ : Collab) (p : plugin) (i : Nat) (r : Resource)
    (s₁ s₂ : Run) (hc : c₁.ApplyFilter = c₂.ApplyFilter) (he : s₁.err = s₂.err)
    (hm : s₁.m = s₂.m) :
    (mutate c₁ p i r s₁).err = (mutate c₂ p i r s₂).err ∧
    (mutate c₁ p i r s₁).m = (mutate c₂ p i r s₂).m := by
  refine ⟨?_, by rw [mutate_m, mutate_m, hc, hm]⟩
  cases hf : (c₂.ApplyFilter p.filter r.StorePreviousId).2 with
  | some e =>
    rw [mutate_err_of_filter_error c₁ p i r s₁ e (by rw [hc]; exact hf),
      mutate_err_of_filter_error c₂ p i r s₂ e hf]
  | none =>
    rw [mutate_err_of_filter_ok c₁ p i r s₁ (by rw [hc]; exact hf),
      mutate_err_of_filter_ok c₂ p i r s₂ hf, hc, hm, he]

/-- The error and the resources of a visit depend on the origin lookup only
through the Helm test. -/
theorem visit_congr (c₁ c₂ : Collab) (p : plugin) (i : Nat) (s₁ s₂ : Run)
    (hc : c₁.ApplyFilter = c₂.ApplyFilter)
    (hs : ∀ r, skipsForHelm c₁ r = skipsForHelm c₂ r)
    (he : s₁.err = s₂.err) (hm : s₁.m = s₂.m) :
    (visit c₁ p i s₁).err = (visit c₂ p i s₂).err ∧
    (visit c₁ p i s₁).m = (visit c₂ p i s₂).m := by
  cases h : s₂.m[i]? with
  | none =>
    rw [visit_out_of_range c₁ p i s₁ (by rw [hm]; exact h),
      visit_out_of_range c₂ p i s₂ h]
    exact ⟨he, hm⟩
  | some r =>
    have h₁ : s₁.m[i]? = some r := by rw [hm]; exact h
    have hmut : isMutated c₁ r = isMutated c₂ r := by simp [isMutated, hs]
    cases hr : isMutated c₂ r with
    | false =>
      obtain ⟨l₁, -, hv₁⟩ := visit_skip c₁ p i s₁ r h₁ (by rw [hmut]; exact hr)
      obtain ⟨l₂, -, hv₂⟩ := visit_skip c₂ p i s₂ r h hr
      rw [hv₁, hv₂]
      exact ⟨he, hm⟩
    | true =>
      obtain ⟨l₁, -, hv₁⟩ := visit_mutate c₁ p i s₁ r h₁ (by rw [hmut]; exact hr)
      obtain ⟨l₂, -, hv₂⟩ := visit_mutate c₂ p i s₂ r h hr
      rw [hv₁, hv₂]
      exact mutate_congr c₁ c₂ p i r _ _ hc he hm

theorem TransformLoop_congr (c₁ c₂ : Collab) (p : plugin)
    (hc : c₁.ApplyFilter = c₂.ApplyFilter)
    (hs : ∀ r, skipsForHelm c₁ r = skipsForHelm c₂ r) :
    ∀ (l : List Nat) (s₁ s₂ : Run), s₁.err = s₂.err → s₁.m = s₂.m →
      (TransformLoop c₁ p l s₁).err = (TransformLoop c₂ p l s₂).err ∧
      (TransformLoop c₁ p l s₁).m = (TransformLoop c₂ p l s₂).m := by
  intro l
  induction l with
  | nil => intro s₁ s₂ he hm; exact ⟨he, hm⟩
  | cons i rest ih =>
    intro s₁ s₂ he hm
    obtain ⟨hve, hvm⟩ := visit_congr c₁ c₂ p i s₁ s₂ hc hs he hm
    simp only [TransformLoop]
    cases h₂ : (visit c₂ p i s₂).err with
    | some e =>
      rw [h₂] at hve
      simp only [hve]
      exact ⟨by rw [h₂], hvm⟩

    | none =>
      rw [h₂] at hve
      simp only [hve]
      exact ih _ _ (by rw [hve, h₂]) hvm

theorem Transform_congr (c₁ c₂ : Collab) (p : plugin) (m : List Resource)
    (hc : c₁.ApplyFilter = c₂.ApplyFilter)
    (hs : ∀ r, skipsForHelm c₁ r = skipsForHelm c₂ r) :
    (Transform c₁ p m).err = (Transform c₂ p m).err ∧
    (Transform c₁ p m).m = (Transform c₂ p m).m := by
  unfold Transform
  split
  · exact ⟨rfl, rfl⟩
  · exact TransformLoop_congr c₁ c₂ p hc hs _ _ _ rfl rfl

theorem skipsForHelm_withOrigin (c : Collab) (r₀ r : Resource)
    (v : Except Error (Option Origin)) :
    skipsForHelm (c.withOrigin r₀ v) r =
      if r = r₀ then
        (match v with
          | .ok (some origin) =>
            decide (origin.ConfiguredBy.Kind = "HelmChartInflationGenerator")
          | _ => false)
      else skipsForHelm c r := by
  unfold skipsForHelm Collab.withOrigin
  by_cases h : r = r₀ <;> simp [h]

theorem visit_withOrigin_mutates (c : Collab) (p : plugin) (r₀ : Resource)
    (v : Except Error (Option Origin)) (i : Nat) (s : Run)
    (hv : skipsForHelm (c.withOrigin r₀ v) r₀ = false)
    (hi : s.m[i]? = some r₀) (he : r₀.IsNilOrEmpty = false) :
    (visit (c.withOrigin r₀ v) p i s).m =
        s.m.set i (c.ApplyFilter p.filter r₀.StorePreviousId).1 ∧
      Event.StorePreviousId i ∈ (visit (c.withOrigin r₀ v) p i s).trace ∧
      Event.ApplyFilter i p.filter ∈ (visit (c.withOrigin r₀ v) p i s).trace := by
  have hr : isMutated (c.withOrigin r₀ v) r₀ = true := by simp [isMutated, he, hv]
  obtain ⟨logs, -, hvis⟩ := visit_mutate (c.withOrigin r₀ v) p i s r₀ hi hr
  obtain ⟨new, hn, h1, h2, -⟩ := mutate_trace (c.withOrigin r₀ v) p i r₀
    { s with trace := s.trace ++ logs }
  rw [hvis, mutate_m, hn]
  exact ⟨rfl, List.mem_append_right _ h1, List.mem_append_right _ h2⟩

/-! ## The claims -/

/-- C1: with an empty target namespace, Transform returns success, leaves every
resource of the set as it was and makes no call at all (no previous-ID store, no
filter application, no conflict query), whatever the collaborators, the field
specs, the unset-only flag and the subject mode are. -/
theorem Transform_empty_namespace_noop (c : Collab) (p : plugin) (m : List Resource)
    (h : p.Namespace = "") :
    Transform c p m = { err := none, m := m, trace := [] } := by
  simp [Transform, h, String.utf8ByteSize, String.utf8ByteSize.go]

theorem Transform_empty_namespace_noop_witness :
    (pluginFor "").Namespace = "" ∧
    Transform sampleCollab (pluginFor "")
        [configMap "app" "a" [], configMap "app" "b" []] =
      { err := none, m := [configMap "app" "a" [], configMap "app" "b" []], trace := [] } :=
  ⟨rfl, Transform_empty_namespace_noop sampleCollab (pluginFor "") _ rfl⟩

/-- C2: let the resources before index `i` be processed without error, and let
the resource at index `i` be mutated (it is not empty and not skipped for its Helm
origin, and the filter succeeds on it).  If the identity it has after the filter
equals the current identity of another resource of the set, then Transform returns
the ID-conflict error that lists all the resources of the set with that identity
(among them the two in conflict), and the resources after index `i` are as they
were at the start, with no call made on them. -/
theorem Transform_id_conflict (c : Collab) (p : plugin) (m : List Resource)
    (i j : Nat) (r r₂ r' : Resource) (hns : p.Namespace ≠ "")
    (hpre : (TransformPrefix c p m i).err = none) (hi : m[i]? = some r)
    (hr : isMutated c r = true)
    (hf : c.ApplyFilter p.filter r.StorePreviousId = (r₂, none))
    (hij : j ≠ i) (hj : (TransformPrefix c p m i).m[j]? = some r')
    (hid : r'.CurId = r₂.CurId) :
    (Transform c p m).err = some (.idConflict (GetMatchingResourcesByCurrentId
      ((TransformPrefix c p m i).m.set i r₂) r₂.CurId.Equals)) ∧
    (∀ x, x ∈ GetMatchingResourcesByCurrentId
        ((TransformPrefix c p m i).m.set i r₂) r₂.CurId.Equals ↔
      x ∈ (TransformPrefix c p m i).m.set i r₂ ∧ x.CurId = r₂.CurId) ∧
    r₂ ∈ GetMatchingResourcesByCurrentId
        ((TransformPrefix c p m i).m.set i r₂) r₂.CurId.Equals ∧
    r' ∈ GetMatchingResourcesByCurrentId
        ((TransformPrefix c p m i).m.set i r₂) r₂.CurId.Equals ∧
    (Transform c p m).m = (TransformPrefix c p m i).m.set i r₂ ∧
    ∀ k, i < k → (Transform c p m).m[k]? = m[k]? ∧
      ∀ e ∈ (Transform c p m).trace, Event.index e ≠ some k := by
  have hlt : i < (TransformPrefix c p m i).m.length := by
    rw [TransformPrefix_length]
    rcases List.getElem?_eq_some_iff.1 hi with ⟨h, -⟩
    exact h
  have hi₂ : ((TransformPrefix c p m i).m.set i r₂)[i]? = some r₂ := by
    simp [List.getElem?_set_self hlt]
  have hj₂ : ((TransformPrefix c p m i).m.set i r₂)[j]? = some r' := by
    rw [List.getElem?_set_ne (Ne.symm hij)]; exact hj
  have hmem : ∀ x, x ∈ GetMatchingResourcesByCurrentId
        ((TransformPrefix c p m i).m.set i r₂) r₂.CurId.Equals ↔
      x ∈ (TransformPrefix c p m i).m.set i r₂ ∧ x.CurId = r₂.CurId := by
    intro x
    simp only [GetMatchingResourcesByCurrentId, List.mem_filter, ResId.Equals,
      decide_eq_true_eq]
    constructor
    · rintro ⟨h1, h2⟩; exact ⟨h1, h2.symm⟩
    · rintro ⟨h1, h2⟩; exact ⟨h1, h2.symm⟩
  have htwo : 2 ≤ (GetMatchingResourcesByCurrentId
      ((TransformPrefix c p m i).m.set i r₂) r₂.CurId.Equals).length :=
    two_le_length_filter_of_ne _ _ i j r₂ r' (Ne.symm hij) hi₂ hj₂
      (ResId.Equals_self _) (by simp [ResId.Equals, hid])
  have hf1 : (c.ApplyFilter p.filter r.StorePreviousId).1 = r₂ := by rw [hf]
  have hf2 : (c.ApplyFilter p.filter r.StorePreviousId).2 = none := by rw [hf]
  have herr : ∀ logs, (mutate c p i r { TransformPrefix c p m i with
      trace := (TransformPrefix c p m i).trace ++ logs }).err =
      some (.idConflict (GetMatchingResourcesByCurrentId
        ((TransformPrefix c p m i).m.set i r₂) r₂.CurId.Equals)) := by
    intro logs
    rw [mutate_err_of_filter_ok c p i r _ hf2, hf1]
    simp only
    rw [if_pos (by omega)]
  obtain ⟨logs, hl, hT⟩ := Transform_eq_mutate_of_err c p m i r hns hpre hi hr
    (fun logs => by rw [herr logs]; simp)
  refine ⟨by rw [hT, herr logs], hmem, (hmem r₂).2 ⟨List.getElem?_mem hi₂, rfl⟩,
    (hmem r').2 ⟨List.getElem?_mem hj₂, hid⟩, by rw [hT, mutate_m, hf1], ?_⟩
  intro k hik
  rw [hT]
  exact mutate_prefix_after c p m i k r logs hl hik

theorem Transform_id_conflict_witness :
    (Transform sampleCollab (pluginFor "prod")
        [configMap "app" "a" [], configMap "app" "b" []]).err =
      some (.idConflict
        [{ configMap "app" "prod" [] with PrevId := some (configMap "app" "a" []).Id },
         { configMap "app" "prod" [] with PrevId := some (configMap "app" "b" []).Id }]) :=
  (Transform_id_conflict sampleCollab (pluginFor "prod")
    [configMap "app" "a" [], configMap "app" "b" []] 1 0 (configMap "app" "b" [])
    { configMap "app" "prod" [] with PrevId := some (configMap "app" "b" []).Id }
    { configMap "app" "prod" [] with PrevId := some (configMap "app" "a" []).Id }
    (by decide) (by decide) rfl rfl rfl (by decide) (by decide) rfl).1

/-- C3: a resource whose origin is configured by "HelmChartInflationGenerator" is
the same after Transform as before, in particular its namespace field and its
previous-ID slot, whatever the target namespace is and whether Transform succeeds
or fails; no previous-ID store and no filter application is made on it. -/
theorem Transform_helm_origin_unchanged (c : Collab) (p : plugin) (m : List Resource)
    (i : Nat) (r : Resource) (origin : Origin) (hi : m[i]? = some r)
    (ho : c.GetOrigin r = .ok (some origin))
    (hk : origin.ConfiguredBy.Kind = "HelmChartInflationGenerator") :
    (Transform c p m).m[i]? = some r ∧
    (Transform c p m).m[i]?.map (fun x => (x.Id.Namespace, x.PrevId))
      = some (r.Id.Namespace, r.PrevId) ∧
    Event.StorePreviousId i ∉ (Transform c p m).trace ∧
    ∀ f, Event.ApplyFilter i f ∉ (Transform c p m).trace := by
  have hr : isMutated c r = false := by simp [isMutated, skipsForHelm, ho, hk]
  obtain ⟨h1, h2⟩ := Transform_untouched c p m i r hi hr
  refine ⟨h1, by rw [h1]; rfl, ?_, ?_⟩
  · intro h; exact h2 _ h rfl
  · intro f h; exact h2 _ h rfl

theorem Transform_helm_origin_unchanged_witness :
    (Transform sampleCollab (pluginFor "prod")
        [helmConfigMap, configMap "app" "a" []]).m[0]? = some helmConfigMap ∧
    (Transform sampleCollab (pluginFor "prod")
        [helmConfigMap, configMap "app" "a" []]).m[1]? =
      some { configMap "app" "prod" [] with PrevId := some (configMap "app" "a" []).Id } :=
  ⟨(Transform_helm_origin_unchanged sampleCollab (pluginFor "prod")
      [helmConfigMap, configMap "app" "a" []] 0 helmConfigMap
      { ConfiguredBy := { Kind := "HelmChartInflationGenerator", Name := "" } }
      rfl rfl rfl).1,
   by decide⟩

/-- C4: let the input decode, leaving the plugin `p₁` (line 35 returns no error).
If the decoded mode is one of the three valid values, Config succeeds and stores
`p₁` with the mode unchanged; if it is the unspecified (empty) mode, Config
succeeds and stores DefaultSubjectsOnly; for any other value Config fails with the
invalid-value error that names the value and the three choices.  Hence after a
successful Config the stored mode is one of the three valid values and is not the
unspecified one. -/
theorem Config_subject_mode (Unmarshal : List UInt8 → plugin → plugin × Option Error)
    (p p₁ : plugin) (c : List UInt8)
    (hdec : Unmarshal c { p with Namespace := "", FieldSpecs := [] } = (p₁, none)) :
    ((p₁.SetRoleBindingSubjects = DefaultSubjectsOnly
        ∨ p₁.SetRoleBindingSubjects = AllServiceAccountSubjects
        ∨ p₁.SetRoleBindingSubjects = NoSubjects) →
      Config Unmarshal p c = (p₁, none)) ∧
    (p₁.SetRoleBindingSubjects = SubjectModeUnspecified →
      Config Unmarshal p c =
        ({ p₁ with SetRoleBindingSubjects := DefaultSubjectsOnly }, none)) ∧
    ((p₁.SetRoleBindingSubjects ≠ DefaultSubjectsOnly
        ∧ p₁.SetRoleBindingSubjects ≠ AllServiceAccountSubjects
        ∧ p₁.SetRoleBindingSubjects ≠ NoSubjects
        ∧ p₁.SetRoleBindingSubjects ≠ SubjectModeUnspecified) →
      Config Unmarshal p c = (p₁, some (.invalidValue p₁.SetRoleBindingSubjects
        [DefaultSubjectsOnly, NoSubjects, AllServiceAccountSubjects]))) ∧
    ((Config Unmarshal p c).2 = none →
      ((Config Unmarshal p c).1.SetRoleBindingSubjects = DefaultSubjectsOnly
        ∨ (Config Unmarshal p c).1.SetRoleBindingSubjects = AllServiceAccountSubjects
        ∨ (Config Unmarshal p c).1.SetRoleBindingSubjects = NoSubjects)
      ∧ (Config Unmarshal p c).1.SetRoleBindingSubjects ≠ SubjectModeUnspecified) := by
  have hne1 : DefaultSubjectsOnly ≠ SubjectModeUnspecified := by decide
  have hne2 : AllServiceAccountSubjects ≠ SubjectModeUnspecified := by decide
  have hne3 : NoSubjects ≠ SubjectModeUnspecified := by decide
  refine ⟨?_, ?_, ?_, ?_⟩
  · intro h
    simp only [Config, hdec]
    rw [if_pos (by tauto)]
  · intro h
    simp only [Config, hdec]
    rw [if_neg (by
      rw [h]
      intro h'
      rcases h' with h' | h' | h'
      · exact hne2 h'.symm
      · exact hne1 h'.symm
      · exact hne3 h'.symm), if_pos h]
  · rintro ⟨h1, h2, h3, h4⟩
    simp only [Config, hdec]
    rw [if_neg (by tauto), if_neg h4]
  · simp only [Config, hdec]
    split
    · rename_i h
      intro _
      refine ⟨by tauto, ?_⟩
      intro h'
      simp only at h h'
      rw [h'] at h
      rcases h with h | h | h
      · exact hne2 h.symm
      · exact hne1 h.symm
      · exact hne3 h.symm
    · split
      · intro _
        exact ⟨Or.inl rfl, hne1⟩
      · intro h; simp at h

theorem Config_subject_mode_witness :
    Config (yamlUnmarshal sampleDecode) stalePlugin [] =
      ({ stalePlugin with Namespace := "prod", FieldSpecs := [] }, none) ∧
    (Config (yamlUnmarshal sampleDecode) KustomizePlugin []).1.SetRoleBindingSubjects
      = DefaultSubjectsOnly :=
  ⟨(Config_subject_mode (yamlUnmarshal sampleDecode) stalePlugin
      { stalePlugin with Namespace := "prod", FieldSpecs := [] } [] rfl).1
      (Or.inr (Or.inr rfl)),
   congrArg (fun x => x.1.SetRoleBindingSubjects)
    ((Config_subject_mode (yamlUnmarshal sampleDecode) KustomizePlugin
      { KustomizePlugin with Namespace := "prod" } [] rfl).2.1 rfl)⟩

/-- C5 (as amended): after a successful Transform with a non-empty target
namespace, take a non-empty resource `r₀` of the set.  If it is not skipped for its
Helm origin, it was still `r₀` when it was visited, the filter was applied to `r₀`
with the identity of `r₀` stored as its previous ID, and the resource at the end is
the filter's output; so, for a filter that does not write the previous-ID slot,
the previous ID at the end is the identity the resource had immediately before its
own mutation.  If it is skipped for its Helm origin, it is not mutated and is at
the end what it was, previous-ID slot included. -/
theorem Transform_previous_id (c : Collab) (p : plugin) (m : List Resource)
    (i : Nat) (r₀ : Resource) (hns : p.Namespace ≠ "")
    (hok : (Transform c p m).err = none) (hi : m[i]? = some r₀)
    (hne : r₀.IsNilOrEmpty = false) :
    (skipsForHelm c r₀ = false →
      (TransformPrefix c p m i).m[i]? = some r₀ ∧
      (Transform c p m).m[i]? = some (c.ApplyFilter p.filter r₀.StorePreviousId).1 ∧
      r₀.StorePreviousId.PrevId = some r₀.CurId ∧
      ((∀ f r, (c.ApplyFilter f r).1.PrevId = r.PrevId) →
        (Transform c p m).m[i]?.map Resource.PrevId = some (some r₀.CurId))) ∧
    (skipsForHelm c r₀ = true → (Transform c p m).m[i]? = some r₀) := by
  constructor
  · intro hskip
    have hr : isMutated c r₀ = true := by simp [isMutated, hne, hskip]
    have hlt : i < m.length := by
      rcases List.getElem?_eq_some_iff.1 hi with ⟨h, -⟩
      exact h
    rw [Transform_eq_whole_loop c p m hns] at hok ⊢
    have hpre := TransformPrefix_err_none_of_le c p m i m.length (le_of_lt hlt) hok
    have hfin := TransformPrefix_get_mutated c p m i m.length r₀ hlt hpre hi hr
    refine ⟨by rw [(TransformPrefix_get_ge c p m i i (le_refl i)).1]; exact hi,
      hfin, rfl, ?_⟩
    intro hframe
    rw [hfin]
    simp [hframe, Resource.StorePreviousId]
  · intro hskip
    exact (Transform_untouched c p m i r₀ hi (by simp [isMutated, hskip])).1

theorem Transform_previous_id_witness :
    (Transform sampleCollab (pluginFor "prod")
        [configMap "app" "a" [], helmConfigMap]).err = none ∧
    (Transform sampleCollab (pluginFor "prod")
        [configMap "app" "a" [], helmConfigMap]).m[0]?.map Resource.PrevId
      = some (some (configMap "app" "a" []).CurId) :=
  ⟨by decide,
   (Transform_previous_id sampleCollab (pluginFor "prod")
      [configMap "app" "a" [], helmConfigMap] 0 (configMap "app" "a" [])
      (by decide) (by decide) rfl rfl).1 rfl |>.2.2.2
     (by
      intro f r
      unfold sampleCollab sampleApplyFilter
      simp only
      split
      · rfl
      · split <;> rfl)⟩

/-- C5 as stated fails on a resource skipped for its Helm origin: Transform with
target "prod" on the single non-empty resource `helmConfigMap` succeeds, and the
previous-ID slot of the resource is still empty, not its identity. -/
theorem Transform_previous_id_helm_counterexample :
    (pluginFor "prod").Namespace ≠ "" ∧
    (Transform sampleCollab (pluginFor "prod") [helmConfigMap]).err = none ∧
    helmConfigMap.IsNilOrEmpty = false ∧
    (Transform sampleCollab (pluginFor "prod") [helmConfigMap]).m[0]?.map Resource.PrevId
      = some none ∧
    (Transform sampleCollab (pluginFor "prod") [helmConfigMap]).m[0]?.map Resource.PrevId
      ≠ some (some helmConfigMap.CurId) := by
  refine ⟨by decide, by decide, rfl, by decide, by decide⟩

/-- C6: let the resources before index `i` be processed without error, and let
the filter fail with error `e` on the resource at index `i`.  Then Transform
returns exactly `e`; the resources before index `i` are in the state the loop left
them in (no rollback), which for a mutated one is the output of the filter on it;
and the resources after index `i` are as they were at the start, with no call made
on them. -/
theorem Transform_filter_error (c : Collab) (p : plugin) (m : List Resource)
    (i : Nat) (r : Resource) (e : Error) (hns : p.Namespace ≠ "")
    (hpre : (TransformPrefix c p m i).err = none) (hi : m[i]? = some r)
    (hr : isMutated c r = true)
    (hf : (c.ApplyFilter p.filter r.StorePreviousId).2 = some e) :
    (Transform c p m).err = some e ∧
    (∀ k, k < i → (Transform c p m).m[k]? = (TransformPrefix c p m i).m[k]?) ∧
    (∀ k rk, k < i → m[k]? = some rk → isMutated c rk = true →
      (Transform c p m).m[k]? = some (c.ApplyFilter p.filter rk.StorePreviousId).1) ∧
    (∀ k, i < k → (Transform c p m).m[k]? = m[k]? ∧
      ∀ ev ∈ (Transform c p m).trace, Event.index ev ≠ some k) := by
  have herr := fun s => mutate_err_of_filter_error c p i r s e hf
  obtain ⟨logs, hl, hT⟩ := Transform_eq_mutate_of_err c p m i r hns hpre hi hr
    (fun logs => by rw [herr]; simp)
  have hbefore : ∀ k, k < i →
      (Transform c p m).m[k]? = (TransformPrefix c p m i).m[k]? := by
    intro k hk
    rw [hT, mutate_m, List.getElem?_set_ne (by omega)]
  refine ⟨by rw [hT, herr], hbefore, ?_, ?_⟩
  · intro k rk hk hmk hrk
    rw [hbefore k hk]
    exact TransformPrefix_get_mutated c p m k i rk hk
      (TransformPrefix_err_none_of_le c p m k i (le_of_lt hk) hpre) hmk hrk
  · intro k hik
    rw [hT]
    exact mutate_prefix_after c p m i k r logs hl hik

theorem Transform_filter_error_witness :
    (Transform sampleCollab (pluginFor "prod")
        [configMap "app" "a" [], configMap "bad" "b" [("malformed", "boom")],
          configMap "late" "c" []]).err = some (.external "boom") ∧
    (Transform sampleCollab (pluginFor "prod")
        [configMap "app" "a" [], configMap "bad" "b" [("malformed", "boom")],
          configMap "late" "c" []]).m[0]? =
      some { configMap "app" "prod" [] with PrevId := some (configMap "app" "a" []).Id } ∧
    (Transform sampleCollab (pluginFor "prod")
        [configMap "app" "a" [], configMap "bad" "b" [("malformed", "boom")],
          configMap "late" "c" []]).m[2]? = some (configMap "late" "c" []) :=
  ⟨(Transform_filter_error sampleCollab (pluginFor "prod")
      [configMap "app" "a" [], configMap "bad" "b" [("malformed", "boom")],
        configMap "late" "c" []] 1 (configMap "bad" "b" [("malformed", "boom")])
      (.external "boom") (by decide) (by decide) rfl rfl rfl).1,
   by decide, by decide⟩

/-- C7: a resource that is nil or empty is the same after Transform as before, and
Transform stores no previous ID for it, applies no filter to it and runs no
conflict query for it.  For a set of one empty resource and target namespace
"prod", Transform returns success and makes no call at all. -/
theorem Transform_empty_resource_untouched (c : Collab) (p : plugin)
    (m : List Resource) (i : Nat) (r : Resource) (hi : m[i]? = some r)
    (he : r.IsNilOrEmpty = true) :
    (Transform c p m).m[i]? = some r ∧
    Event.StorePreviousId i ∉ (Transform c p m).trace ∧
    (∀ f, Event.ApplyFilter i f ∉ (Transform c p m).trace) ∧
    (∀ id, Event.GetMatchingResourcesByCurrentId i id ∉ (Transform c p m).trace) ∧
    (p.Namespace = "prod" →
      Transform c p [r] = { err := none, m := [r], trace := [] }) := by
  have hr : isMutated c r = false := by simp [isMutated, he]
  obtain ⟨h1, h2⟩ := Transform_untouched c p m i r hi hr
  refine ⟨h1, ?_, ?_, ?_, ?_⟩
  · intro h; exact h2 _ h rfl
  · intro f h; exact h2 _ h rfl
  · intro id h; exact h2 _ h rfl
  · intro hp
    have h4 : p.Namespace.utf8ByteSize ≠ 0 := by rw [hp]; decide
    simp [Transform, h4, List.range_succ, TransformLoop, visit, he]

theorem Transform_empty_resource_untouched_witness :
    Transform sampleCollab (pluginFor "prod") [emptyResource] =
      { err := none, m := [emptyResource], trace := [] } ∧
    (Transform sampleCollab (pluginFor "prod")
        [configMap "app" "a" [], emptyResource]).m[1]? = some emptyResource :=
  ⟨(Transform_empty_resource_untouched sampleCollab (pluginFor "prod")
      [emptyResource] 0 emptyResource rfl rfl).2.2.2.2 rfl,
   (Transform_empty_resource_untouched sampleCollab (pluginFor "prod")
      [configMap "app" "a" [], emptyResource] 1 emptyResource rfl rfl).1⟩

/-- C8: Config resets namespace and field specs before decoding (lines 33-34): for
every prior plugin state and every input that decodes, the namespace and the field
specs held after Config are those of the input alone (the empty namespace and no
field specs when the input omits them), so Config on two plugins with different
prior state ends with the same namespace and field specs; and, for every decoder,
the namespace and field specs held before Config have no effect on its result. -/
theorem Config_resets_namespace_and_fieldSpecs
    (decode : List UInt8 → Except Error ConfigInput) (p p' : plugin) (c : List UInt8)
    (inp : ConfigInput) (hdec : decode c = .ok inp) :
    (Config (yamlUnmarshal decode) p c).1.Namespace = inp.Namespace.getD "" ∧
    (Config (yamlUnmarshal decode) p c).1.FieldSpecs = inp.FieldSpecs.getD [] ∧
    (Config (yamlUnmarshal decode) p c).1.Namespace
      = (Config (yamlUnmarshal decode) p' c).1.Namespace ∧
    (Config (yamlUnmarshal decode) p c).1.FieldSpecs
      = (Config (yamlUnmarshal decode) p' c).1.FieldSpecs ∧
    ∀ (Unmarshal : List UInt8 → plugin → plugin × Option Error) ns fs,
      Config Unmarshal { p with Namespace := ns, FieldSpecs := fs } c
        = Config Unmarshal p c := by
  have key : ∀ q : plugin,
      (Config (yamlUnmarshal decode) q c).1.Namespace = inp.Namespace.getD "" ∧
      (Config (yamlUnmarshal decode) q c).1.FieldSpecs = inp.FieldSpecs.getD [] := by
    intro q
    simp only [Config, yamlUnmarshal, hdec]
    split
    · exact ⟨rfl, rfl⟩
    · split
      · exact ⟨rfl, rfl⟩
      · exact ⟨rfl, rfl⟩
  refine ⟨(key p).1, (key p).2, by rw [(key p).1, (key p').1],
    by rw [(key p).2, (key p').2], ?_⟩
  intro Unmarshal ns fs
  rfl

theorem Config_resets_namespace_and_fieldSpecs_witness :
    (Config (yamlUnmarshal sampleDecode) stalePlugin []).1.Namespace = "prod" ∧
    (Config (yamlUnmarshal sampleDecode) stalePlugin []).1.FieldSpecs = [] :=
  ⟨(Config_resets_namespace_and_fieldSpecs sampleDecode stalePlugin (pluginFor "") []
      sampleInput rfl).1,
   (Config_resets_namespace_and_fieldSpecs sampleDecode stalePlugin (pluginFor "") []
      sampleInput rfl).2.1⟩

/-- C9: take any collaborators and any resource `r₀`, and let the origin lookup of
`r₀` fail with `e`, or report no origin, or report an origin `o` whose configuring
kind is not "HelmChartInflationGenerator".  The error Transform returns and the
final resources are the same in the three cases, and in each of them a visit of
`r₀`, when `r₀` is not empty, stores its previous ID, applies the filter to it and
replaces it by the filter's output. -/
theorem Transform_origin_failure_as_absent (c : Collab) (p : plugin)
    (m : List Resource) (r₀ : Resource) (e : Error) (o : Origin)
    (ho : o.ConfiguredBy.Kind ≠ "HelmChartInflationGenerator") :
    (Transform (c.withOrigin r₀ (.error e)) p m).err
      = (Transform (c.withOrigin r₀ (.ok none)) p m).err ∧
    (Transform (c.withOrigin r₀ (.error e)) p m).m
      = (Transform (c.withOrigin r₀ (.ok none)) p m).m ∧
    (Transform (c.withOrigin r₀ (.error e)) p m).err
      = (Transform (c.withOrigin r₀ (.ok (some o))) p m).err ∧
    (Transform (c.withOrigin r₀ (.error e)) p m).m
      = (Transform (c.withOrigin r₀ (.ok (some o))) p m).m ∧
    ∀ v, (v = .error e ∨ v = .ok none ∨ v = .ok (some o)) →
      ∀ i s, s.m[i]? = some r₀ → r₀.IsNilOrEmpty = false →
        (visit (c.withOrigin r₀ v) p i s).m =
          s.m.set i (c.ApplyFilter p.filter r₀.StorePreviousId).1 ∧
        Event.StorePreviousId i ∈ (visit (c.withOrigin r₀ v) p i s).trace ∧
        Event.ApplyFilter i p.filter ∈ (visit (c.withOrigin r₀ v) p i s).trace := by
  have h1 : ∀ r, skipsForHelm (c.withOrigin r₀ (.error e)) r
      = skipsForHelm (c.withOrigin r₀ (.ok none)) r := by
    intro r; simp [skipsForHelm_withOrigin]
  have h2 : ∀ r, skipsForHelm (c.withOrigin r₀ (.error e)) r
      = skipsForHelm (c.withOrigin r₀ (.ok (some o))) r := by
    intro r; simp [skipsForHelm_withOrigin, ho]
  obtain ⟨a1, a2⟩ := Transform_congr _ _ p m (by rfl) h1
  obtain ⟨b1, b2⟩ := Transform_congr _ _ p m (by rfl) h2
  refine ⟨a1, a2, b1, b2, ?_⟩
  intro v hv i s hi he
  apply visit_withOrigin_mutates c p r₀ v i s _ hi he
  rcases hv with rfl | rfl | rfl <;> simp [skipsForHelm_withOrigin, ho]

theorem Transform_origin_failure_as_absent_witness :
    (Transform (sampleCollab.withOrigin (configMap "app" "a" [])
        (.error (.external "lookup failed"))) (pluginFor "prod")
        [configMap "app" "a" []]).m
      = (Transform (sampleCollab.withOrigin (configMap "app" "a" []) (.ok none))
        (pluginFor "prod") [configMap "app" "a" []]).m ∧
    (Transform (sampleCollab.withOrigin (configMap "app" "a" [])
        (.error (.external "lookup failed"))) (pluginFor "prod")
        [configMap "app" "a" []]).m
      = [{ configMap "app" "prod" [] with PrevId := some (configMap "app" "a" []).Id }] :=
  ⟨(Transform_origin_failure_as_absent sampleCollab (pluginFor "prod")
      [configMap "app" "a" []] (configMap "app" "a" []) (.external "lookup failed")
      { ConfiguredBy := { Kind := "Kustomization", Name := "" } } (by decide)).2.1,
   by decide⟩

/-- C10: the filter of the embedding acts on one resource only.  If Transform with
a non-empty target namespace returns success, then at the end every resource that
was mutated (not empty and not skipped for its Helm origin) has an identity that
no other resource of the set has, whether that other resource was mutated before
it, after it, or was skipped. -/
theorem Transform_success_unique_ids (c : Collab) (p : plugin) (m : List Resource)
    (i j : Nat) (r₀ ri rj : Resource) (hns : p.Namespace ≠ "")
    (hok : (Transform c p m).err = none) (hi : m[i]? = some r₀)
    (hr : isMutated c r₀ = true) (hij : i ≠ j)
    (hri : (Transform c p m).m[i]? = some ri) (hrj : (Transform c p m).m[j]? = some rj) :
    ri.CurId ≠ rj.CurId := by
  rw [Transform_eq_whole_loop c p m hns] at hok hri hrj
  have hil : i < m.length := by
    rcases List.getElem?_eq_some_iff.1 hi with ⟨h, -⟩
    exact h
  have hjl : j < m.length := by
    rcases List.getElem?_eq_some_iff.1 hrj with ⟨h, -⟩
    rw [TransformPrefix_length] at h
    exact h
  exact TransformPrefix_unique c p m m.length hok i j r₀ ri rj hil hi hr hij hri hrj
    (Or.inl hjl)

theorem Transform_success_unique_ids_witness :
    (Transform sampleCollab (pluginFor "prod")
        [configMap "app" "a" [], configMap "web" "a" [], helmConfigMap]).err = none ∧
    (configMap "app" "prod" []).CurId ≠ (configMap "web" "prod" []).CurId :=
  ⟨by decide,
   Transform_success_unique_ids sampleCollab (pluginFor "prod")
     [configMap "app" "a" [], configMap "web" "a" [], helmConfigMap] 0 1
     (configMap "app" "a" [])
     { configMap "app" "prod" [] with PrevId := some (configMap "app" "a" []).Id }
     { configMap "web" "prod" [] with PrevId := some (configMap "web" "a" []).Id }
     (by decide) (by decide) rfl rfl (by decide) (by decide) (by decide)⟩

end NamespaceTransformer
